import Mathlib

/-!
Verification of the Tenlixor SDK core class
(`sdk/typescript/src/tenlixor.ts`) against its specification.

Shallow embedding conventions:
* JavaScript plain objects used as string-keyed maps are association lists
  with a replace-or-append update (`objSet`) and first-match lookup
  (`objGet`); a JS object has at most one binding per key, which the
  update discipline preserves.
* JavaScript truthiness is modelled explicitly where the code relies on
  it: a string is truthy iff it is non-empty; `undefined` is `none`.
* `Date.now()` and the result of the network `fetch` are passed in as
  explicit parameters (`now : Nat`, an `Except` oracle), since they are
  the only ambient effects the code consumes.
* Thrown exceptions are `Except.error`; a method that both mutates state
  and may throw returns the final state together with an optional
  propagated error.
-/

namespace TenlixorSDK

/-- Object update `m[k] = v`: replace the first binding of `k`, append if absent. -/
def objSet {α : Type} (m : List (String × α)) (k : String) (v : α) :
    List (String × α) :=
  match m with
  | [] => [(k, v)]
  | (k0, v0) :: rest => if k0 = k then (k, v) :: rest else (k0, v0) :: objSet rest k v

/-- Object lookup `m[k]`: `none` models `undefined`. -/
def objGet {α : Type} (m : List (String × α)) (k : String) : Option α :=
  match m with
  | [] => none
  | (k0, v0) :: rest => if k0 = k then some v0 else objGet rest k

/-- Object delete (`localStorage.removeItem` / `Map.delete`). -/
def objDel {α : Type} (m : List (String × α)) (k : String) : List (String × α) :=
  match m with
  | [] => []
  | (k0, v0) :: rest => if k0 = k then rest else (k0, v0) :: objDel rest k

theorem objGet_objSet_self {α : Type} (m : List (String × α)) (k : String) (v : α) :
    objGet (objSet m k v) k = some v := by
  induction m with
  | nil => simp [objSet, objGet]
  | cons hd tl ih =>
    obtain ⟨k0, v0⟩ := hd
    by_cases h : k0 = k
    · simp [objSet, objGet, h]
    · simp [objSet, objGet, h, ih]

theorem objGet_objSet_ne {α : Type} (m : List (String × α)) (k k' : String) (v : α)
    (h : k ≠ k') : objGet (objSet m k v) k' = objGet m k' := by
  induction m with
  | nil => simp [objSet, objGet, h]
  | cons hd tl ih =>
    obtain ⟨k0, v0⟩ := hd
    by_cases h0 : k0 = k
    · subst h0
      simp [objSet, objGet, h]
    · simp only [objSet, if_neg h0]
      by_cases h1 : k0 = k'
      · simp [objGet, h1]
      · simp [objGet, h1, ih]

/-- JS truthiness of an optional string: `undefined`, `null` and `""` are falsy. -/
def truthyStr : Option String → Bool
  | none => false
  | some s => decide (s ≠ "")

/-- `x || d` for an optional string configuration field. -/
def strOr (x : Option String) (d : String) : String :=
  match x with
  | none => d
  | some s => if s = "" then d else s

/-- `x || d` for an optional numeric configuration field (`0` is falsy). -/
def natOr (x : Option Nat) (d : Nat) : Nat :=
  match x with
  | none => d
  | some n => if n = 0 then d else n

/-- `x !== false` for an optional boolean configuration field. -/
def neqFalse : Option Bool → Bool
  | some false => false
  | _ => true

/-- The raw `TenlixorConfig` argument: every field the caller may omit is optional. -/
structure TenlixorConfig where
  token : Option String
  tenantSlug : Option String
  language : Option String
  apiUrl : Option String
  cache : Option Bool
  cacheTTL : Option Nat
  fallbackLanguage : Option String
  autoScan : Option Bool

/-- The resolved `Required<TenlixorConfig>` stored on the instance. -/
structure RConfig where
  token : String
  tenantSlug : String
  language : String
  apiUrl : String
  cache : Bool
  cacheTTL : Nat
  fallbackLanguage : String
  autoScan : Bool

def defaultApiUrl : String := "https://api-tenlixor.verbytes.com/api/v1/strings"

/-- The constructor's argument validation and default resolution
(`tenlixor.ts` lines 35-52). -/
def mkTenlixor (config : TenlixorConfig) : Except String RConfig :=
  if ¬ truthyStr config.token then Except.error "Tenlixor: API token is required"
  else if ¬ truthyStr config.tenantSlug then Except.error "Tenlixor: tenantSlug is required"
  else Except.ok
    { token := config.token.getD ""
      tenantSlug := config.tenantSlug.getD ""
      language := strOr config.language "en"
      apiUrl := strOr config.apiUrl defaultApiUrl
      cache := neqFalse config.cache
      cacheTTL := natOr config.cacheTTL 300000
      fallbackLanguage := strOr config.fallbackLanguage "en"
      autoScan := neqFalse config.autoScan }

/-- C10: falsy-but-provided optional fields are silently replaced by their
defaults (`cacheTTL = 0` becomes `300000`, empty `language` / `apiUrl` /
`fallbackLanguage` become their defaults), and construction throws exactly
when `token` or `tenantSlug` is missing or empty. -/
theorem constructor_falsy_defaults :
    (∀ cfg : TenlixorConfig,
      (∃ rc, mkTenlixor cfg = Except.ok rc) ↔
        (truthyStr cfg.token = true ∧ truthyStr cfg.tenantSlug = true))
    ∧ ∀ cfg : TenlixorConfig,
        truthyStr cfg.token = true → truthyStr cfg.tenantSlug = true →
        cfg.language = some "" → cfg.apiUrl = some "" → cfg.cacheTTL = some 0 →
        cfg.fallbackLanguage = some "" →
        ∃ rc, mkTenlixor cfg = Except.ok rc ∧ rc.language = "en" ∧
          rc.apiUrl = defaultApiUrl ∧ rc.cacheTTL = 300000 ∧
          rc.fallbackLanguage = "en" := by
  constructor
  · intro cfg
    constructor
    · intro ⟨rc, h⟩
      by_cases ht : truthyStr cfg.token
      · by_cases hs : truthyStr cfg.tenantSlug
        · exact ⟨ht, hs⟩
        · simp [mkTenlixor, ht, hs] at h
      · simp [mkTenlixor, ht] at h
    · intro ⟨ht, hs⟩
      refine ⟨{ token := cfg.token.getD "", tenantSlug := cfg.tenantSlug.getD "",
                language := strOr cfg.language "en", apiUrl := strOr cfg.apiUrl defaultApiUrl,
                cache := neqFalse cfg.cache, cacheTTL := natOr cfg.cacheTTL 300000,
                fallbackLanguage := strOr cfg.fallbackLanguage "en",
                autoScan := neqFalse cfg.autoScan }, ?_⟩
      simp [mkTenlixor, ht, hs]
  · intro cfg ht hs hl ha hc hf
    refine ⟨{ token := cfg.token.getD "", tenantSlug := cfg.tenantSlug.getD "",
              language := strOr cfg.language "en", apiUrl := strOr cfg.apiUrl defaultApiUrl,
              cache := neqFalse cfg.cache, cacheTTL := natOr cfg.cacheTTL 300000,
              fallbackLanguage := strOr cfg.fallbackLanguage "en",
              autoScan := neqFalse cfg.autoScan }, ?_, ?_, ?_, ?_, ?_⟩ <;>
      simp [mkTenlixor, ht, hs, hl, ha, hc, hf, strOr, natOr]

/-- Closed instantiation of `constructor_falsy_defaults`. -/
theorem constructor_falsy_defaults_witness :
    ∃ rc, mkTenlixor ⟨some "t1", some "acme", some "", some "", none, some 0, some "", none⟩ =
        Except.ok rc ∧ rc.language = "en" ∧ rc.apiUrl = defaultApiUrl ∧
        rc.cacheTTL = 300000 ∧ rc.fallbackLanguage = "en" :=
  constructor_falsy_defaults.2 ⟨some "t1", some "acme", some "", some "", none, some 0, some "", none⟩
    (by decide) (by decide) rfl rfl rfl rfl

/-! ## Data store and the resolver `t` -/

/-- One entry of a language block's `resources` array. -/
structure Resource where
  key : String
  value : String

/-- One block of `data.languages`. -/
structure LangBlock where
  code : String
  resources : List Resource

/-- The `data` member of a successful API response. -/
structure ResponseData where
  tenant_id : Option String
  languages : List LangBlock

/-- The parsed response envelope. -/
structure TenlixorResponse where
  success : Bool
  data : ResponseData

/-- A per-language key→value table (a JS plain object). -/
abbrev Table := List (String × String)

/-- `this.data.languages`: language code → table. -/
abbrev LangStore := List (String × Table)

/-- The flat key→value map built from one resource list
(`keyValueMap[resource.key] = resource.value`, later writes win). -/
def buildMap (resources : List Resource) : Table :=
  resources.foldl (fun m r => objSet m r.key r.value) []

/-- `mergeData` restricted to the languages store: each language block
replaces the table entry for its code. -/
def mergeLangs (store : LangStore) (blocks : List LangBlock) : LangStore :=
  blocks.foldl (fun st lb => objSet st lb.code (buildMap lb.resources)) store

/-- `this.data.languages[lang][key]` with `undefined` propagation. -/
def lookupVal (store : LangStore) (lang key : String) : Option String :=
  (objGet store lang).bind (fun table => objGet table key)

/-- The truthiness test `this.data.languages[lang] && this.data.languages[lang][key]`
used by `t`: the table exists (an object is always truthy) and maps `key`
to a truthy (non-empty) value. -/
def truthyHit (store : LangStore) (lang key : String) : Bool :=
  match lookupVal store lang key with
  | none => false
  | some v => decide (v ≠ "")

/-- The resolver `t(key, languageCode?)` (`tenlixor.ts` lines 196-214):
`lang = languageCode || currentLanguage`; truthy hit in `lang`'s table,
else (when `lang` differs from the fallback) truthy hit in the fallback
table, else the key itself. -/
def tResolve (store : LangStore) (fallbackLanguage currentLanguage key : String)
    (languageCode : Option String) : String :=
  let lang := strOr languageCode currentLanguage
  if truthyHit store lang key then (lookupVal store lang key).getD key
  else if lang ≠ fallbackLanguage ∧ truthyHit store fallbackLanguage key = true then
    (lookupVal store fallbackLanguage key).getD key
  else key

/-- C1 counterexample: the spec's resolution order fails on the code in two
concrete places. (a) With the table `en ↦ {k ↦ ""}` and both current and
fallback language `en`, the table for `en` maps `k`, so the claim demands
`t(k) = ""`; the code's truthiness test rejects the empty value and
returns the key `"k"` instead. (b) With an explicit language argument
`""` whose table maps `k` to `"x"`, the claim demands resolution against
the `""` table; the code treats the falsy argument as absent and resolves
against the current language's table. -/
theorem t_resolution_counterexample :
    (tResolve [("en", [("k", "")])] "en" "en" "k" none = "k" ∧ ("k" : String) ≠ "")
    ∧ tResolve [("", [("k", "x")]), ("en", [("k", "ven")])] "en" "en" "k" (some "") = "ven" := by
  refine ⟨⟨?_, by decide⟩, ?_⟩ <;> rfl

/-- C1 amended: writing `lang` for the language argument when it is present
and non-empty and `currentLanguage` otherwise, `t(key, lang?)` returns
(1) the value of `key` in `lang`'s table when that value exists and is
non-empty; (2) otherwise, when `lang` differs from the fallback language,
the value of `key` in the fallback table when that value exists and is
non-empty; (3) otherwise `key` itself. In particular a key mapped only by
the fallback table (to a non-empty value) while the current language
differs resolves to the fallback value. `t` is a total function: it never
throws. -/
theorem t_resolution_amended :
    (∀ store fallback current key langArg v,
      lookupVal store (strOr langArg current) key = some v → v ≠ "" →
      tResolve store fallback current key langArg = v)
    ∧ (∀ store fallback current key langArg v,
      truthyHit store (strOr langArg current) key = false →
      strOr langArg current ≠ fallback →
      lookupVal store fallback key = some v → v ≠ "" →
      tResolve store fallback current key langArg = v)
    ∧ (∀ store fallback current key langArg,
      truthyHit store (strOr langArg current) key = false →
      (strOr langArg current = fallback ∨ truthyHit store fallback key = false) →
      tResolve store fallback current key langArg = key)
    ∧ (∀ store fallback current key v,
      current ≠ fallback →
      lookupVal store current key = none →
      lookupVal store fallback key = some v → v ≠ "" →
      tResolve store fallback current key none = v) := by
  have step1 : ∀ store fallback current key langArg v,
      lookupVal store (strOr langArg current) key = some v → v ≠ "" →
      tResolve store fallback current key langArg = v := by
    intro store fallback current key langArg v hv hne
    have ht : truthyHit store (strOr langArg current) key = true := by
      simp [truthyHit, hv, hne]
    simp [tResolve, ht, hv]
  have step2 : ∀ store fallback current key langArg v,
      truthyHit store (strOr langArg current) key = false →
      strOr langArg current ≠ fallback →
      lookupVal store fallback key = some v → v ≠ "" →
      tResolve store fallback current key langArg = v := by
    intro store fallback current key langArg v ht hne hv hvne
    have htf : truthyHit store fallback key = true := by
      simp [truthyHit, hv, hvne]
    simp [tResolve, ht, hne, htf, hv]
  refine ⟨step1, step2, ?_, ?_⟩
  · intro store fallback current key langArg ht hcase
    rcases hcase with heq | htf
    · subst heq
      simp [tResolve, ht]
    · simp [tResolve, ht, htf]
  · intro store fallback current key v hne hcur hv hvne
    have ht : truthyHit store (strOr none current) key = false := by
      simp [truthyHit, strOr, hcur]
    exact step2 store fallback current key none v ht (by simpa [strOr] using hne) hv hvne

/-- Closed instantiation of `t_resolution_amended` (fallback-only key). -/
theorem t_resolution_amended_witness :
    tResolve [("en", [("greet", "Hello")])] "en" "tr" "greet" none = "Hello" :=
  t_resolution_amended.2.2.2 [("en", [("greet", "Hello")])] "en" "tr" "greet" "Hello"
    (by decide) rfl rfl (by decide)

/-! ## Engine state, cache and orchestrator operations -/

/-- A cache entry `{timestamp, data}`. -/
structure CacheEntry where
  timestamp : Nat
  data : ResponseData

/-- Events appended to the emission trace by the orchestrator. -/
inductive EmittedEvent where
  | loaded (language : String) (reloaded : Bool)
  | error (code message : String)
  | languageChanged (fromLang toLang : String)

/-- The mutable instance state: `this.data`, lifecycle flags, the two cache
tiers (`localStorage` and `this.memoryCache`) and the trace of emitted
events. -/
structure EngineState where
  tenant_id : Option String
  languages : LangStore
  isInitialized : Bool
  currentLanguage : String
  isLoading : Bool
  localStore : List (String × CacheEntry)
  memoryCache : List (String × CacheEntry)
  events : List EmittedEvent

/-- The state set up by the constructor (`tenlixor.ts` lines 54-68). -/
def initialState (cfg : RConfig) : EngineState :=
  { tenant_id := none, languages := [], isInitialized := false,
    currentLanguage := cfg.language, isLoading := false,
    localStore := [], memoryCache := [], events := [] }

/-- `getCacheKey`: `txr_{tenantId}_{languageCode}` with the placeholder
`"default"` while `this.data.tenant_id` is falsy. -/
def getCacheKey (st : EngineState) (languageCode : String) : String :=
  let tenantId := match st.tenant_id with
    | some s => if s = "" then "default" else s
    | none => "default"
  "txr_" ++ tenantId ++ "_" ++ languageCode

/-- `getFromCache(languageCode, ignoreTTL)`: `localStorage` first (a stale
entry there falls through), then the in-memory map; an entry is used when
`ignoreTTL || now - entry.timestamp < cacheTTL`. -/
def getFromCache (cfg : RConfig) (st : EngineState) (languageCode : String)
    (ignoreTTL : Bool) (now : Nat) : Option ResponseData :=
  let cacheKey := getCacheKey st languageCode
  let fresh : CacheEntry → Bool := fun entry =>
    ignoreTTL || decide (now - entry.timestamp < cfg.cacheTTL)
  let memo : Option ResponseData :=
    match objGet st.memoryCache cacheKey with
    | some entry => if fresh entry then some entry.data else none
    | none => none
  match objGet st.localStore cacheKey with
  | some entry => if fresh entry then some entry.data else memo
  | none => memo

/-- `saveToCache`: writes the timestamped entry to both tiers. -/
def saveToCache (st : EngineState) (languageCode : String)
    (payload : ResponseData) (now : Nat) : EngineState :=
  let cacheKey := getCacheKey st languageCode
  let entry : CacheEntry := ⟨now, payload⟩
  { st with localStore := objSet st.localStore cacheKey entry,
            memoryCache := objSet st.memoryCache cacheKey entry }

/-- `clearCache`: removes the entry from both tiers. -/
def clearCache (st : EngineState) (languageCode : String) : EngineState :=
  let cacheKey := getCacheKey st languageCode
  { st with localStore := objDel st.localStore cacheKey,
            memoryCache := objDel st.memoryCache cacheKey }

/-- `mergeData` (`tenlixor.ts` lines 176-188) acting on the instance state. -/
def mergeData (st : EngineState) (payload : ResponseData) : EngineState :=
  { st with languages := mergeLangs st.languages payload.languages }

/-- `emit` as seen by the orchestrator: appends to the emission trace
(per-listener delivery is modelled separately). -/
def emitEvent (st : EngineState) (e : EmittedEvent) : EngineState :=
  { st with events := st.events ++ [e] }

/-- The `try` block of `fetchStrings` together with its stale-cache `catch`
(`tenlixor.ts` lines 122-169). The network outcome is the `oracle`
parameter; HTTP errors, the 401 case and a `success:false` envelope all
throw inside the `try`, before any state mutation. -/
def fetchNetwork (cfg : RConfig) (st : EngineState)
    (oracle : Except String TenlixorResponse) (now : Nat) (languageCode : String) :
    Except String (ResponseData × EngineState) :=
  let tryResult : Except String (ResponseData × EngineState) :=
    match oracle with
    | Except.error msg => Except.error msg
    | Except.ok result =>
      if ¬ result.success then Except.error "API returned success: false"
      else
        let st1 := if truthyStr result.data.tenant_id then
            { st with tenant_id := result.data.tenant_id } else st
        let st2 := mergeData st1 result.data
        let st3 := if cfg.cache then saveToCache st2 languageCode result.data now else st2
        Except.ok (result.data, st3)
  match tryResult with
  | Except.ok r => Except.ok r
  | Except.error msg =>
    if cfg.cache then
      match getFromCache cfg st languageCode true now with
      | some cached => Except.ok (cached, mergeData st cached)
      | none => Except.error msg
    else Except.error msg

/-- `fetchStrings(languageCode)` (`tenlixor.ts` lines 112-170): fresh cache
hit first, then the network with stale-cache fallback. -/
def fetchStrings (cfg : RConfig) (st : EngineState)
    (oracle : Except String TenlixorResponse) (now : Nat) (languageCode : String) :
    Except String (ResponseData × EngineState) :=
  if cfg.cache then
    match getFromCache cfg st languageCode false now with
    | some cached => Except.ok (cached, mergeData st cached)
    | none => fetchNetwork cfg st oracle now languageCode
  else fetchNetwork cfg st oracle now languageCode

/-- `init()` (`tenlixor.ts` lines 74-105). The DOM scan on success touches
only the document, not the engine state. `init` never throws: its result
is just the final state. -/
def init (cfg : RConfig) (st : EngineState)
    (oracle : Except String TenlixorResponse) (now : Nat) : EngineState :=
  if st.isLoading then st
  else
    let st1 := { st with isLoading := true }
    match fetchStrings cfg st1 oracle now st1.currentLanguage with
    | Except.ok (_, st2) =>
      let st3 := { st2 with isInitialized := true }
      let st4 := emitEvent st3 (EmittedEvent.loaded st3.currentLanguage false)
      { st4 with isLoading := false }
    | Except.error msg =>
      let st2 := emitEvent st1 (EmittedEvent.error "INIT_FAILED" msg)
      { st2 with isLoading := false }

/-- `setLanguage(languageCode)` (`tenlixor.ts` lines 220-244): returns the
final state and, on failure, the re-thrown error. -/
def setLanguage (cfg : RConfig) (st : EngineState)
    (oracle : Except String TenlixorResponse) (now : Nat) (languageCode : String) :
    EngineState × Option String :=
  if languageCode = st.currentLanguage then (st, none)
  else
    let previousLanguage := st.currentLanguage
    let st1 := { st with currentLanguage := languageCode }
    match fetchStrings cfg st1 oracle now languageCode with
    | Except.ok (_, st2) =>
      (emitEvent st2 (EmittedEvent.languageChanged previousLanguage languageCode), none)
    | Except.error msg =>
      let st2 := { st1 with currentLanguage := previousLanguage }
      (emitEvent st2 (EmittedEvent.error "LANGUAGE_CHANGE_FAILED" msg), some msg)

/-- `reload()` (`tenlixor.ts` lines 249-258): clears the current language's
cache entry, then fetches; there is no `try`/`catch`, so a fetch failure
propagates (returned as `some msg`). -/
def reload (cfg : RConfig) (st : EngineState)
    (oracle : Except String TenlixorResponse) (now : Nat) : EngineState × Option String :=
  let st1 := if cfg.cache then clearCache st st.currentLanguage else st
  match fetchStrings cfg st1 oracle now st1.currentLanguage with
  | Except.ok (_, st2) =>
    (emitEvent st2 (EmittedEvent.loaded st2.currentLanguage true), none)
  | Except.error msg => (st1, some msg)

/-! ## Merge round-trip (C6) -/

theorem mergeLangs_cons (store : LangStore) (hd : LangBlock) (tl : List LangBlock) :
    mergeLangs store (hd :: tl) =
      mergeLangs (objSet store hd.code (buildMap hd.resources)) tl := rfl

theorem mergeLangs_not_mem (store : LangStore) (blocks : List LangBlock) (c : String)
    (h : c ∉ blocks.map LangBlock.code) :
    objGet (mergeLangs store blocks) c = objGet store c := by
  induction blocks generalizing store with
  | nil => rfl
  | cons hd tl ih =>
    simp only [List.map_cons, List.mem_cons, not_or] at h
    rw [mergeLangs_cons, ih _ h.2, objGet_objSet_ne _ _ _ _ (fun he => h.1 he.symm)]

theorem mergeLangs_mem (store : LangStore) (blocks : List LangBlock) (lb : LangBlock)
    (hlb : lb ∈ blocks) (hnd : (blocks.map LangBlock.code).Nodup) :
    objGet (mergeLangs store blocks) lb.code = some (buildMap lb.resources) := by
  induction blocks generalizing store with
  | nil => cases hlb
  | cons hd tl ih =>
    simp only [List.map_cons, List.nodup_cons] at hnd
    rcases List.mem_cons.mp hlb with heq | hmem
    · subst heq
      rw [mergeLangs_cons, mergeLangs_not_mem _ _ _ hnd.1, objGet_objSet_self]
    · rw [mergeLangs_cons]
      exact ih _ hmem hnd.2

theorem foldl_objSet_not_mem (rs : List Resource) (init : Table) (k : String)
    (h : k ∉ rs.map Resource.key) :
    objGet (rs.foldl (fun m r => objSet m r.key r.value) init) k = objGet init k := by
  induction rs generalizing init with
  | nil => rfl
  | cons hd tl ih =>
    simp only [List.map_cons, List.mem_cons, not_or] at h
    rw [List.foldl_cons, ih _ h.2, objGet_objSet_ne _ _ _ _ (fun he => h.1 he.symm)]

theorem foldl_objSet_mem (rs : List Resource) (init : Table) (r : Resource)
    (hr : r ∈ rs) (hnd : (rs.map Resource.key).Nodup) :
    objGet (rs.foldl (fun m r => objSet m r.key r.value) init) r.key = some r.value := by
  induction rs generalizing init with
  | nil => cases hr
  | cons hd tl ih =>
    simp only [List.map_cons, List.nodup_cons] at hnd
    rcases List.mem_cons.mp hr with heq | hmem
    · subst heq
      rw [List.foldl_cons, foldl_objSet_not_mem _ _ _ hnd.1, objGet_objSet_self]
    · rw [List.foldl_cons]
      exact ih _ hmem hnd.2

theorem objGet_buildMap (rs : List Resource) (hnd : (rs.map Resource.key).Nodup)
    (k v : String) :
    objGet (buildMap rs) k = some v ↔ (⟨k, v⟩ : Resource) ∈ rs := by
  constructor
  · intro h
    by_cases hk : k ∈ rs.map Resource.key
    · obtain ⟨r, hr, hkey⟩ := List.mem_map.mp hk
      have := foldl_objSet_mem rs [] r hr hnd
      rw [hkey] at this
      rw [buildMap] at h
      rw [this] at h
      obtain ⟨rfl⟩ : r.value = v := Option.some.inj h
      have : r = ⟨k, r.value⟩ := by cases r; simp_all
      rwa [← this]
    · rw [buildMap, foldl_objSet_not_mem rs [] k hk] at h
      cases h
  · intro h
    have := foldl_objSet_mem rs [] ⟨k, v⟩ h hnd
    simpa [buildMap] using this

/-- C6: after `merge(payload)` with distinct language codes, the table for
each code in the payload is exactly the key→value map of that code's
resource list (the previous entry is replaced, not appended to), and the
table for every other code is unchanged. -/
theorem merge_round_trip :
    ∀ (st : EngineState) (payload : ResponseData),
      (payload.languages.map LangBlock.code).Nodup →
      (∀ lb ∈ payload.languages,
        objGet (mergeData st payload).languages lb.code = some (buildMap lb.resources)
        ∧ ((lb.resources.map Resource.key).Nodup →
            ∀ k v, objGet (buildMap lb.resources) k = some v ↔
              (⟨k, v⟩ : Resource) ∈ lb.resources))
      ∧ ∀ c, c ∉ payload.languages.map LangBlock.code →
          objGet (mergeData st payload).languages c = objGet st.languages c := by
  intro st payload hnd
  refine ⟨fun lb hlb => ⟨?_, fun hk k v => objGet_buildMap _ hk k v⟩, fun c hc => ?_⟩
  · exact mergeLangs_mem st.languages payload.languages lb hlb hnd
  · exact mergeLangs_not_mem st.languages payload.languages c hc

/-- Closed instantiation of `merge_round_trip`: merging an `en` payload
replaces the `en` table and leaves the `de` table alone. -/
theorem merge_round_trip_witness :
    objGet (mergeData
        { tenant_id := none, languages := [("en", [("old", "gone")]), ("de", [("x", "y")])],
          isInitialized := true, currentLanguage := "en", isLoading := false,
          localStore := [], memoryCache := [], events := [] }
        ⟨some "acme-1", [⟨"en", [⟨"a", "1"⟩, ⟨"b", "2"⟩]⟩]⟩).languages "en" =
      some (buildMap [⟨"a", "1"⟩, ⟨"b", "2"⟩])
    ∧ objGet (mergeData
        { tenant_id := none, languages := [("en", [("old", "gone")]), ("de", [("x", "y")])],
          isInitialized := true, currentLanguage := "en", isLoading := false,
          localStore := [], memoryCache := [], events := [] }
        ⟨some "acme-1", [⟨"en", [⟨"a", "1"⟩, ⟨"b", "2"⟩]⟩]⟩).languages "de" =
      some [("x", "y")] := by
  have h := merge_round_trip
    { tenant_id := none, languages := [("en", [("old", "gone")]), ("de", [("x", "y")])],
      isInitialized := true, currentLanguage := "en", isLoading := false,
      localStore := [], memoryCache := [], events := [] }
    ⟨some "acme-1", [⟨"en", [⟨"a", "1"⟩, ⟨"b", "2"⟩]⟩]⟩ (by simp)
  refine ⟨(h.1 ⟨"en", [⟨"a", "1"⟩, ⟨"b", "2"⟩]⟩ (by simp)).1, ?_⟩
  have := h.2 "de" (by simp)
  rw [this]
  rfl

/-! ## Cache TTL boundaries (C7) -/

/-- C7: an entry written at time `T` under TTL `D` is returned by a
non-`ignoreTTL` read at `T + D - 1`, rejected at `T + D + 1`, and returned
by an `ignoreTTL` read at any time. -/
theorem cache_ttl_boundaries :
    ∀ (cfg : RConfig) (st : EngineState) (lang : String) (payload : ResponseData) (T : Nat),
      0 < cfg.cacheTTL →
      getFromCache cfg (saveToCache st lang payload T) lang false (T + cfg.cacheTTL - 1) =
        some payload
      ∧ getFromCache cfg (saveToCache st lang payload T) lang false (T + cfg.cacheTTL + 1) =
        none
      ∧ ∀ now, getFromCache cfg (saveToCache st lang payload T) lang true now = some payload := by
  intro cfg st lang payload T hD
  have h1 : (T + cfg.cacheTTL - 1) - T < cfg.cacheTTL := by omega
  have h2 : ¬ ((T + cfg.cacheTTL + 1) - T < cfg.cacheTTL) := by omega
  refine ⟨?_, ?_, fun now => ?_⟩ <;>
    simp [getFromCache, saveToCache, getCacheKey, objGet_objSet_self, h1, h2]

/-- Closed instantiation of `cache_ttl_boundaries` (TTL `1000`, written at `5`). -/
theorem cache_ttl_boundaries_witness :
    getFromCache ⟨"t1", "acme", "en", defaultApiUrl, true, 1000, "en", true⟩
      (saveToCache (initialState ⟨"t1", "acme", "en", defaultApiUrl, true, 1000, "en", true⟩)
        "en" ⟨none, []⟩ 5) "en" false 1004 = some ⟨none, []⟩
    ∧ getFromCache ⟨"t1", "acme", "en", defaultApiUrl, true, 1000, "en", true⟩
      (saveToCache (initialState ⟨"t1", "acme", "en", defaultApiUrl, true, 1000, "en", true⟩)
        "en" ⟨none, []⟩ 5) "en" false 1006 = none
    ∧ getFromCache ⟨"t1", "acme", "en", defaultApiUrl, true, 1000, "en", true⟩
      (saveToCache (initialState ⟨"t1", "acme", "en", defaultApiUrl, true, 1000, "en", true⟩)
        "en" ⟨none, []⟩ 5) "en" true 99999 = some ⟨none, []⟩ := by
  have h := cache_ttl_boundaries ⟨"t1", "acme", "en", defaultApiUrl, true, 1000, "en", true⟩
    (initialState ⟨"t1", "acme", "en", defaultApiUrl, true, 1000, "en", true⟩)
    "en" ⟨none, []⟩ 5 (by decide)
  exact ⟨h.1, h.2.1, h.2.2 99999⟩

/-! ## Stale-cache fallback (C4) -/

/-- A TTL-ignoring miss means neither tier holds the key at all, so every
other read misses too. -/
theorem getFromCache_true_none (cfg : RConfig) (st : EngineState) (lang : String)
    (now : Nat) (h : getFromCache cfg st lang true now = none) :
    ∀ ig now2, getFromCache cfg st lang ig now2 = none := by
  intro ig now2
  unfold getFromCache at h ⊢
  cases hl : objGet st.localStore (getCacheKey st lang) <;>
    cases hm : objGet st.memoryCache (getCacheKey st lang) <;>
      simp [hl, hm] at h ⊢

/-- C4: with caching enabled and a failing network fetch, a language load
succeeds whenever the TTL-ignoring cache lookup hits (even an expired
entry), and fails with the fetch's error exactly when that lookup misses. -/
theorem stale_cache_fallback :
    ∀ (cfg : RConfig) (st : EngineState) (lang : String) (now : Nat) (msg : String),
      cfg.cache = true →
      ((∃ d, getFromCache cfg st lang true now = some d) →
        ∃ r, fetchStrings cfg st (Except.error msg) now lang = Except.ok r)
      ∧ (getFromCache cfg st lang true now = none →
        fetchStrings cfg st (Except.error msg) now lang = Except.error msg) := by
  intro cfg st lang now msg hc
  constructor
  · rintro ⟨d, hd⟩
    rw [fetchStrings]
    cases hfresh : getFromCache cfg st lang false now with
    | some cached => exact ⟨(cached, mergeData st cached), by simp [hc, hfresh]⟩
    | none =>
      refine ⟨(d, mergeData st d), ?_⟩
      simp [hc, hfresh, fetchNetwork, hd]
  · intro hmiss
    have hfresh := getFromCache_true_none cfg st lang now hmiss false now
    rw [fetchStrings]
    simp [hc, hfresh, fetchNetwork, hmiss]

/-- Closed instantiation of `stale_cache_fallback`: an entry written at time
`0` with TTL `1000`, read at `5000` (expired), still rescues a failed
fetch. -/
theorem stale_cache_fallback_witness :
    ∃ r, fetchStrings ⟨"t1", "acme", "en", defaultApiUrl, true, 1000, "en", true⟩
      (saveToCache (initialState ⟨"t1", "acme", "en", defaultApiUrl, true, 1000, "en", true⟩)
        "en" ⟨none, [⟨"en", [⟨"a", "1"⟩]⟩]⟩ 0)
      (Except.error "network down") 5000 "en" = Except.ok r :=
  (stale_cache_fallback ⟨"t1", "acme", "en", defaultApiUrl, true, 1000, "en", true⟩
    (saveToCache (initialState ⟨"t1", "acme", "en", defaultApiUrl, true, 1000, "en", true⟩)
      "en" ⟨none, [⟨"en", [⟨"a", "1"⟩]⟩]⟩ 0)
    "en" 5000 "network down" rfl).1 ⟨⟨none, [⟨"en", [⟨"a", "1"⟩]⟩]⟩, rfl⟩

/-! ## init error isolation (C5) -/

/-- C5: `init` is a no-op while already loading; otherwise it always clears
`isLoading`, and on a failed load it emits `error{INIT_FAILED}`, leaves
`isInitialized` unchanged (hence `false` for the initial load), and does
not throw (`init`'s result type is just the final state). -/
theorem init_error_isolation :
    ∀ (cfg : RConfig) (st : EngineState) (oracle : Except String TenlixorResponse) (now : Nat),
      (st.isLoading = true → init cfg st oracle now = st)
      ∧ (st.isLoading = false →
          (init cfg st oracle now).isLoading = false
          ∧ ∀ msg,
              fetchStrings cfg { st with isLoading := true } oracle now st.currentLanguage =
                Except.error msg →
              (init cfg st oracle now).isInitialized = st.isInitialized
              ∧ (init cfg st oracle now).events =
                  st.events ++ [EmittedEvent.error "INIT_FAILED" msg]) := by
  intro cfg st oracle now
  refine ⟨fun h => by simp [init, h], fun h => ?_⟩
  cases hf : fetchStrings cfg { st with isLoading := true } oracle now st.currentLanguage with
  | ok r =>
    refine ⟨by simp [init, h, hf], fun msg hmsg => ?_⟩
    cases hmsg
  | error msg0 =>
    refine ⟨by simp [init, h, hf], fun msg hmsg => ?_⟩
    injection hmsg with he
    subst he
    exact ⟨by simp [init, h, hf, emitEvent], by simp [init, h, hf, emitEvent]⟩

/-- Closed instantiation of `init_error_isolation`: a failed initial load
with caching off. -/
theorem init_error_isolation_witness :
    (init ⟨"t1", "acme", "en", defaultApiUrl, false, 300000, "en", true⟩
      (initialState ⟨"t1", "acme", "en", defaultApiUrl, false, 300000, "en", true⟩)
      (Except.error "network down") 0).isLoading = false
    ∧ (init ⟨"t1", "acme", "en", defaultApiUrl, false, 300000, "en", true⟩
      (initialState ⟨"t1", "acme", "en", defaultApiUrl, false, 300000, "en", true⟩)
      (Except.error "network down") 0).isInitialized = false
    ∧ (init ⟨"t1", "acme", "en", defaultApiUrl, false, 300000, "en", true⟩
      (initialState ⟨"t1", "acme", "en", defaultApiUrl, false, 300000, "en", true⟩)
      (Except.error "network down") 0).events =
      [EmittedEvent.error "INIT_FAILED" "network down"] := by
  have h := (init_error_isolation ⟨"t1", "acme", "en", defaultApiUrl, false, 300000, "en", true⟩
    (initialState ⟨"t1", "acme", "en", defaultApiUrl, false, 300000, "en", true⟩)
    (Except.error "network down") 0).2 rfl
  have h2 := h.2 "network down" rfl
  exact ⟨h.1, h2.1, h2.2⟩

/-! ## setLanguage rollback (C3) -/

/-- C3: `setLanguage(code)` with `code = currentLanguage` is a no-op for
every oracle and clock (no fetch, no state change, no event); with a
distinct `code` whose load fails, `currentLanguage` is rolled back, an
`error{LANGUAGE_CHANGE_FAILED}` event is appended, and the failure is
re-thrown to the caller. -/
theorem setLanguage_rollback :
    ∀ (cfg : RConfig) (st : EngineState) (oracle : Except String TenlixorResponse)
      (now : Nat) (code : String),
      (code = st.currentLanguage → setLanguage cfg st oracle now code = (st, none))
      ∧ (code ≠ st.currentLanguage →
          ∀ msg,
            fetchStrings cfg { st with currentLanguage := code } oracle now code =
              Except.error msg →
            (setLanguage cfg st oracle now code).1.currentLanguage = st.currentLanguage
            ∧ (setLanguage cfg st oracle now code).1.events =
                st.events ++ [EmittedEvent.error "LANGUAGE_CHANGE_FAILED" msg]
            ∧ (setLanguage cfg st oracle now code).2 = some msg) := by
  intro cfg st oracle now code
  refine ⟨fun h => by simp [setLanguage, h], fun hne msg hf => ?_⟩
  exact ⟨by simp [setLanguage, hne, hf, emitEvent], by simp [setLanguage, hne, hf, emitEvent],
    by simp [setLanguage, hne, hf]⟩

/-- Closed instantiation of `setLanguage_rollback`: `en → tr` with a failing
fetch and no cache. -/
theorem setLanguage_rollback_witness :
    (setLanguage ⟨"t1", "acme", "en", defaultApiUrl, false, 300000, "en", true⟩
      (initialState ⟨"t1", "acme", "en", defaultApiUrl, false, 300000, "en", true⟩)
      (Except.error "network down") 0 "tr").1.currentLanguage = "en"
    ∧ (setLanguage ⟨"t1", "acme", "en", defaultApiUrl, false, 300000, "en", true⟩
      (initialState ⟨"t1", "acme", "en", defaultApiUrl, false, 300000, "en", true⟩)
      (Except.error "network down") 0 "tr").1.events =
      [EmittedEvent.error "LANGUAGE_CHANGE_FAILED" "network down"]
    ∧ (setLanguage ⟨"t1", "acme", "en", defaultApiUrl, false, 300000, "en", true⟩
      (initialState ⟨"t1", "acme", "en", defaultApiUrl, false, 300000, "en", true⟩)
      (Except.error "network down") 0 "tr").2 = some "network down" :=
  (setLanguage_rollback ⟨"t1", "acme", "en", defaultApiUrl, false, 300000, "en", true⟩
    (initialState ⟨"t1", "acme", "en", defaultApiUrl, false, 300000, "en", true⟩)
    (Except.error "network down") 0 "tr").2 (by decide) "network down" rfl

/-! ## reload error propagation (C2) -/

/-- C2 counterexample: with an empty cache and a failing fetch, `reload`
re-throws the failure to its caller and emits no event at all — the claim
that the error is caught at the orchestrator boundary and converted to an
`error` event is false for `reload` (the code has no `try`/`catch` there,
unlike `init`). -/
theorem reload_error_counterexample :
    (reload ⟨"t1", "acme", "en", defaultApiUrl, true, 300000, "en", true⟩
      (initialState ⟨"t1", "acme", "en", defaultApiUrl, true, 300000, "en", true⟩)
      (Except.error "network down") 0).2 = some "network down"
    ∧ (reload ⟨"t1", "acme", "en", defaultApiUrl, true, 300000, "en", true⟩
      (initialState ⟨"t1", "acme", "en", defaultApiUrl, true, 300000, "en", true⟩)
      (Except.error "network down") 0).1.events = [] := by
  exact ⟨rfl, rfl⟩

/-- C2 amended: a load failure during `reload()` (network error with no
usable cache entry after the clear) is NOT caught: `reload` emits no
event and propagates the error to its caller. -/
theorem reload_error_propagates :
    ∀ (cfg : RConfig) (st : EngineState) (oracle : Except String TenlixorResponse)
      (now : Nat) (msg : String),
      fetchStrings cfg (if cfg.cache then clearCache st st.currentLanguage else st)
        oracle now st.currentLanguage = Except.error msg →
      (reload cfg st oracle now).2 = some msg
      ∧ (reload cfg st oracle now).1.events = st.events := by
  intro cfg st oracle now msg hf
  by_cases hc : cfg.cache
  · rw [if_pos hc] at hf
    have hcur : (clearCache st st.currentLanguage).currentLanguage = st.currentLanguage := rfl
    have hev : (clearCache st st.currentLanguage).events = st.events := rfl
    refine ⟨by simp [reload, hc, hcur, hf], by simp [reload, hc, hcur, hf, hev]⟩
  · rw [if_neg hc] at hf
    refine ⟨by simp [reload, hc, hf], by simp [reload, hc, hf]⟩

/-- Closed instantiation of `reload_error_propagates`. -/
theorem reload_error_propagates_witness :
    (reload ⟨"t1", "acme", "en", defaultApiUrl, true, 300000, "en", true⟩
      (initialState ⟨"t1", "acme", "en", defaultApiUrl, true, 300000, "en", true⟩)
      (Except.error "boom") 7).2 = some "boom"
    ∧ (reload ⟨"t1", "acme", "en", defaultApiUrl, true, 300000, "en", true⟩
      (initialState ⟨"t1", "acme", "en", defaultApiUrl, true, 300000, "en", true⟩)
      (Except.error "boom") 7).1.events = [] :=
  reload_error_propagates ⟨"t1", "acme", "en", defaultApiUrl, true, 300000, "en", true⟩
    (initialState ⟨"t1", "acme", "en", defaultApiUrl, true, 300000, "en", true⟩)
    (Except.error "boom") 7 "boom" rfl

/-! ## Event fan-out with isolated failure (C8) -/

/-- A registered subscriber: an identifier (for the invocation trace) and
whether its callback throws when invoked. -/
structure Listener where
  id : Nat
  throws : Bool

/-- One iteration of the `emit` loop (`tenlixor.ts` lines 357-363): the
callback is invoked inside a `try`; if it throws, the failure is caught
and logged. The accumulator is the pair (invocation trace, log of caught
failures). -/
def emitStep (acc : List Nat × List Nat) (cb : Listener) : List Nat × List Nat :=
  if cb.throws then (acc.1 ++ [cb.id], acc.2 ++ [cb.id])
  else (acc.1 ++ [cb.id], acc.2)

/-- `emit(event, data)` over the subscriber list registered for one event:
a total function (no subscriber failure escapes the loop) returning the
invocation trace and the logged failures. -/
def emitAll (subscribers : List Listener) : List Nat × List Nat :=
  subscribers.foldl emitStep ([], [])

theorem emitAll_go (ls : List Listener) (acc : List Nat × List Nat) :
    (ls.foldl emitStep acc).1 = acc.1 ++ ls.map Listener.id := by
  induction ls generalizing acc with
  | nil => simp
  | cons hd tl ih =>
    rw [List.foldl_cons, ih]
    cases h : hd.throws <;> simp [emitStep, h]

/-- C8: `emit` invokes every subscriber exactly once, in registration order,
whatever each callback does; a throwing subscriber is caught and logged and
later subscribers still run (`emitAll` is total, so nothing propagates to
the emitter's caller). In particular, with two `loaded` listeners of which
the first throws, both are invoked exactly once. -/
theorem emit_isolated_fanout :
    (∀ subscribers : List Listener, (emitAll subscribers).1 = subscribers.map Listener.id)
    ∧ emitAll [⟨0, true⟩, ⟨1, false⟩] = ([0, 1], [0]) := by
  exact ⟨fun subscribers => by simpa using emitAll_go subscribers ([], []), by rfl⟩

/-! ## DOM scan idempotence (C9)

The document tree under `document.body` is a tree of element and text
nodes.  `scan()` (`tenlixor.ts` lines 263-289) makes two passes: the
attribute pass visits every element carrying `data-txr-key` in document
order (setting `textContent` replaces the element's children with a
single text node, which also removes any not-yet-visited descendants from
the document, exactly as the static `querySelectorAll` snapshot behaves
for the rendered tree), and the text pass (`scanTextNodes`, lines
296-326) walks the tree skipping resolved elements and script/style/
noscript containers, rewriting matching text nodes and marking their
parent element.  Marking the parent from inside a child's visit is
modelled by threading the parent's attribute list through the fold over
its children. -/

mutual
inductive DomNode where
  | textNode (content : String)
  | elem (tag : String) (attrs : List (String × String)) (children : DomForest)
inductive DomForest where
  | nil
  | cons (hd : DomNode) (tl : DomForest)
end

mutual
/-- The attribute pass of `scan()` on one node (lines 271-285): an element
with a truthy `data-txr-key` and no `data-txr-resolved` marker gets its
text replaced by `t(key, lang)` and is marked resolved with the language;
an already-resolved element whose recorded language differs is
re-translated; otherwise the pass continues into the children. -/
def attrPass (store : LangStore) (fallback lang : String) : DomNode → DomNode
  | DomNode.textNode s => DomNode.textNode s
  | DomNode.elem tag attrs children =>
    match objGet attrs "data-txr-key" with
    | some key =>
      if key ≠ "" ∧ objGet attrs "data-txr-resolved" = none then
        DomNode.elem tag
          (objSet (objSet attrs "data-txr-resolved" "true") "data-txr-lang" lang)
          (DomForest.cons (DomNode.textNode (tResolve store fallback lang key (some lang)))
            DomForest.nil)
      else if key ≠ "" ∧ objGet attrs "data-txr-lang" ≠ some lang then
        DomNode.elem tag (objSet attrs "data-txr-lang" lang)
          (DomForest.cons (DomNode.textNode (tResolve store fallback lang key (some lang)))
            DomForest.nil)
      else DomNode.elem tag attrs (attrPassF store fallback lang children)
    | none => DomNode.elem tag attrs (attrPassF store fallback lang children)
def attrPassF (store : LangStore) (fallback lang : String) : DomForest → DomForest
  | DomForest.nil => DomForest.nil
  | DomForest.cons hd tl =>
    DomForest.cons (attrPass store fallback lang hd) (attrPassF store fallback lang tl)
end

/-- The scanner's parent-marking step (lines 313-317): resolved, matched
key, applied language — in source order. -/
def markParent (attrs : List (String × String)) (text lang : String) :
    List (String × String) :=
  objSet (objSet (objSet attrs "data-txr-resolved" "true") "data-txr-key" text)
    "data-txr-lang" lang

mutual
/-- `scanTextNodes(node, lang)` on an element node: skip if marked resolved,
skip script/style/noscript subtrees, otherwise process the children with
this element as the parent whose attributes a matching text child marks. -/
def textPass (store : LangStore) (fallback lang : String) : DomNode → DomNode
  | DomNode.textNode s => DomNode.textNode s
  | DomNode.elem tag attrs children =>
    if objGet attrs "data-txr-resolved" ≠ none then DomNode.elem tag attrs children
    else if tag.toLower = "script" ∨ tag.toLower = "style" ∨ tag.toLower = "noscript" then
      DomNode.elem tag attrs children
    else
      let r := textPassF store fallback lang children attrs
      DomNode.elem tag r.2 r.1
/-- The fold over an element's child list: a text child whose trimmed
content truthily matches a key of the current language's table is
rewritten to `t(text, lang)` and marks the parent; an element child is
processed recursively; the parent's attributes are threaded through. -/
def textPassF (store : LangStore) (fallback lang : String) :
    DomForest → List (String × String) → DomForest × List (String × String)
  | DomForest.nil, attrs => (DomForest.nil, attrs)
  | DomForest.cons (DomNode.textNode s) tl, attrs =>
    if s.trim ≠ "" ∧ truthyHit store lang s.trim = true then
      let r := textPassF store fallback lang tl (markParent attrs s.trim lang)
      (DomForest.cons (DomNode.textNode (tResolve store fallback lang s.trim (some lang))) r.1,
        r.2)
    else
      let r := textPassF store fallback lang tl attrs
      (DomForest.cons (DomNode.textNode s) r.1, r.2)
  | DomForest.cons (DomNode.elem ctag cattrs cchildren) tl, attrs =>
    let c := textPass store fallback lang (DomNode.elem ctag cattrs cchildren)
    let r := textPassF store fallback lang tl attrs
    (DomForest.cons c r.1, r.2)
end

/-- One `scan()` call on the `document.body` tree once the guard has
passed: the attribute pass over the whole tree, then
`scanTextNodes(document.body, lang)`. -/
def scanBody (store : LangStore) (fallback lang : String) (body : DomNode) : DomNode :=
  textPass store fallback lang (attrPass store fallback lang body)

/-- `scan()` including its guard (line 264): a no-op unless the engine is
initialized. -/
def scanOp (isInitialized : Bool) (store : LangStore) (fallback lang : String)
    (body : DomNode) : DomNode :=
  if isInitialized then scanBody store fallback lang body else body

theorem lang_ne_resolved : ("data-txr-lang" : String) ≠ "data-txr-resolved" := by decide

theorem lang_ne_key : ("data-txr-lang" : String) ≠ "data-txr-key" := by decide

theorem key_ne_resolved : ("data-txr-key" : String) ≠ "data-txr-resolved" := by decide

theorem resolved_ne_key : ("data-txr-resolved" : String) ≠ "data-txr-key" := by decide

theorem resolved_ne_lang : ("data-txr-resolved" : String) ≠ "data-txr-lang" := by decide

theorem objGet_markParent_resolved (attrs : List (String × String)) (text lang : String) :
    objGet (markParent attrs text lang) "data-txr-resolved" = some "true" := by
  rw [markParent, objGet_objSet_ne _ _ _ _ lang_ne_resolved,
    objGet_objSet_ne _ _ _ _ key_ne_resolved, objGet_objSet_self]

theorem objGet_markParent_key (attrs : List (String × String)) (text lang : String) :
    objGet (markParent attrs text lang) "data-txr-key" = some text := by
  rw [markParent, objGet_objSet_ne _ _ _ _ lang_ne_key, objGet_objSet_self]

theorem objGet_markParent_lang (attrs : List (String × String)) (text lang : String) :
    objGet (markParent attrs text lang) "data-txr-lang" = some lang := by
  rw [markParent, objGet_objSet_self]

/-- An attribute list is marked for `lang`: any truthy `data-txr-key` it
carries comes with `data-txr-resolved` set and `data-txr-lang = lang`.
Elements in this state fire neither branch of the attribute pass. -/
def keyMarked (lang : String) (attrs : List (String × String)) : Prop :=
  ∀ k, objGet attrs "data-txr-key" = some k → k ≠ "" →
    objGet attrs "data-txr-resolved" ≠ none ∧ objGet attrs "data-txr-lang" = some lang

theorem keyMarked_markParent (attrs : List (String × String)) (text lang : String) :
    keyMarked lang (markParent attrs text lang) := by
  intro k _ _
  rw [objGet_markParent_resolved, objGet_markParent_lang]
  exact ⟨by simp, rfl⟩

theorem keyMarked_branch1 (attrs : List (String × String)) (lang : String) :
    keyMarked lang (objSet (objSet attrs "data-txr-resolved" "true") "data-txr-lang" lang) := by
  intro k _ _
  rw [objGet_objSet_ne _ _ _ _ lang_ne_resolved, objGet_objSet_self, objGet_objSet_self]
  exact ⟨by simp, rfl⟩

mutual
/-- Every element of the tree is `keyMarked`. The attribute pass produces
this state and both passes preserve it; on such a tree the attribute pass
is the identity. -/
def KeyStable (lang : String) : DomNode → Prop
  | DomNode.textNode _ => True
  | DomNode.elem _ attrs children => keyMarked lang attrs ∧ KeyStableF lang children
def KeyStableF (lang : String) : DomForest → Prop
  | DomForest.nil => True
  | DomForest.cons hd tl => KeyStable lang hd ∧ KeyStableF lang tl
end

/-- The text pass never clears a parent's `data-txr-resolved` marker. -/
theorem textPassF_resolved (store : LangStore) (fallback lang : String) :
    ∀ (fr : DomForest) (attrs : List (String × String)),
      objGet attrs "data-txr-resolved" ≠ none →
      objGet (textPassF store fallback lang fr attrs).2 "data-txr-resolved" ≠ none
  | DomForest.nil, attrs => fun h => h
  | DomForest.cons (DomNode.textNode s) tl, attrs => by
    intro h
    rw [textPassF]
    by_cases hc : s.trim ≠ "" ∧ truthyHit store lang s.trim = true
    · rw [if_pos hc]
      exact textPassF_resolved store fallback lang tl (markParent attrs s.trim lang)
        (by rw [objGet_markParent_resolved]; simp)
    · rw [if_neg hc]
      exact textPassF_resolved store fallback lang tl attrs h
  | DomForest.cons (DomNode.elem ctag cattrs cchildren) tl, attrs => by
    intro h
    rw [textPassF]
    exact textPassF_resolved store fallback lang tl attrs h

/-- Either the text pass left the parent's attributes untouched, or it
marked them resolved. -/
theorem textPassF_untouched_or_resolved (store : LangStore) (fallback lang : String) :
    ∀ (fr : DomForest) (attrs : List (String × String)),
      (textPassF store fallback lang fr attrs).2 = attrs ∨
      objGet (textPassF store fallback lang fr attrs).2 "data-txr-resolved" ≠ none
  | DomForest.nil, attrs => Or.inl rfl
  | DomForest.cons (DomNode.textNode s) tl, attrs => by
    rw [textPassF]
    by_cases hc : s.trim ≠ "" ∧ truthyHit store lang s.trim = true
    · rw [if_pos hc]
      exact Or.inr (textPassF_resolved store fallback lang tl (markParent attrs s.trim lang)
        (by rw [objGet_markParent_resolved]; simp))
    · rw [if_neg hc]
      exact textPassF_untouched_or_resolved store fallback lang tl attrs
  | DomForest.cons (DomNode.elem ctag cattrs cchildren) tl, attrs => by
    rw [textPassF]
    exact textPassF_untouched_or_resolved store fallback lang tl attrs

theorem keyStable_elem (lang tag : String) (attrs : List (String × String))
    (children : DomForest) (h1 : keyMarked lang attrs) (h2 : KeyStableF lang children) :
    KeyStable lang (DomNode.elem tag attrs children) := by
  rw [KeyStable]
  exact ⟨h1, h2⟩

theorem keyStable_text (lang s : String) : KeyStable lang (DomNode.textNode s) := by
  rw [KeyStable]
  trivial

theorem keyStableF_nil (lang : String) : KeyStableF lang DomForest.nil := by
  rw [KeyStableF]
  trivial

theorem keyStableF_cons (lang : String) (hd : DomNode) (tl : DomForest)
    (h1 : KeyStable lang hd) (h2 : KeyStableF lang tl) :
    KeyStableF lang (DomForest.cons hd tl) := by
  rw [KeyStableF]
  exact ⟨h1, h2⟩

theorem keyMarked_branch2 (attrs : List (String × String)) (lang : String)
    (h : objGet attrs "data-txr-resolved" ≠ none) :
    keyMarked lang (objSet attrs "data-txr-lang" lang) := by
  intro k _ _
  rw [objGet_objSet_ne _ _ _ _ lang_ne_resolved, objGet_objSet_self]
  exact ⟨h, rfl⟩

theorem keyMarked_of_conditions (attrs : List (String × String)) (lang key : String)
    (hk : objGet attrs "data-txr-key" = some key)
    (h1 : ¬(key ≠ "" ∧ objGet attrs "data-txr-resolved" = none))
    (h2 : ¬(key ≠ "" ∧ objGet attrs "data-txr-lang" ≠ some lang)) :
    keyMarked lang attrs := by
  intro k hk2 hkne
  rw [hk] at hk2
  obtain rfl := Option.some.inj hk2
  push_neg at h1 h2
  exact ⟨h1 hkne, h2 hkne⟩

mutual
/-- After the attribute pass, every element with a truthy key is marked
resolved for `lang`. -/
theorem attrPass_keyStable (store : LangStore) (fallback lang : String) :
    ∀ n : DomNode, KeyStable lang (attrPass store fallback lang n)
  | DomNode.textNode s => by
    rw [attrPass]
    exact keyStable_text lang s
  | DomNode.elem tag attrs children => by
    rw [attrPass]
    cases hk : objGet attrs "data-txr-key" with
    | some key =>
      dsimp only
      by_cases h1 : key ≠ "" ∧ objGet attrs "data-txr-resolved" = none
      · rw [if_pos h1]
        exact keyStable_elem _ _ _ _ (keyMarked_branch1 attrs lang)
          (keyStableF_cons _ _ _ (keyStable_text _ _) (keyStableF_nil _))
      · rw [if_neg h1]
        by_cases h2 : key ≠ "" ∧ objGet attrs "data-txr-lang" ≠ some lang
        · rw [if_pos h2]
          exact keyStable_elem _ _ _ _
            (keyMarked_branch2 attrs lang (fun hnone => h1 ⟨h2.1, hnone⟩))
            (keyStableF_cons _ _ _ (keyStable_text _ _) (keyStableF_nil _))
        · rw [if_neg h2]
          exact keyStable_elem _ _ _ _ (keyMarked_of_conditions attrs lang key hk h1 h2)
            (attrPassF_keyStable store fallback lang children)
    | none =>
      dsimp only
      exact keyStable_elem _ _ _ _ (fun k hk2 _ => absurd hk2 (by rw [hk]; simp))
        (attrPassF_keyStable store fallback lang children)
theorem attrPassF_keyStable (store : LangStore) (fallback lang : String) :
    ∀ fr : DomForest, KeyStableF lang (attrPassF store fallback lang fr)
  | DomForest.nil => by
    rw [attrPassF]
    exact keyStableF_nil lang
  | DomForest.cons hd tl => by
    rw [attrPassF]
    exact keyStableF_cons _ _ _ (attrPass_keyStable store fallback lang hd)
      (attrPassF_keyStable store fallback lang tl)
end

mutual
/-- On a `KeyStable` tree the attribute pass fires no branch: it is the
identity. -/
theorem attrPass_id (store : LangStore) (fallback lang : String) :
    ∀ n : DomNode, KeyStable lang n → attrPass store fallback lang n = n
  | DomNode.textNode s => fun _ => by rw [attrPass]
  | DomNode.elem tag attrs children => fun h => by
    rw [KeyStable] at h
    obtain ⟨hm, hc⟩ := h
    rw [attrPass]
    cases hk : objGet attrs "data-txr-key" with
    | some key =>
      dsimp only
      by_cases hke : key = ""
      · subst hke
        rw [if_neg (by simp), if_neg (by simp), attrPassF_id store fallback lang children hc]
      · obtain ⟨hres, hlang⟩ := hm key hk hke
        rw [if_neg (fun h12 => hres h12.2), if_neg (fun h12 => h12.2 hlang),
          attrPassF_id store fallback lang children hc]
    | none =>
      dsimp only
      rw [attrPassF_id store fallback lang children hc]
theorem attrPassF_id (store : LangStore) (fallback lang : String) :
    ∀ fr : DomForest, KeyStableF lang fr → attrPassF store fallback lang fr = fr
  | DomForest.nil => fun _ => by rw [attrPassF]
  | DomForest.cons hd tl => fun h => by
    rw [KeyStableF] at h
    rw [attrPassF, attrPass_id store fallback lang hd h.1,
      attrPassF_id store fallback lang tl h.2]
end

mutual
/-- The text pass preserves `KeyStable`: the only attributes it writes are
a full resolved/key/lang marking with a truthy key. -/
theorem textPass_keyStable (store : LangStore) (fallback lang : String) :
    ∀ n : DomNode, KeyStable lang n → KeyStable lang (textPass store fallback lang n)
  | DomNode.textNode s => fun _ => by
    rw [textPass]
    exact keyStable_text lang s
  | DomNode.elem tag attrs children => fun h => by
    rw [KeyStable] at h
    rw [textPass]
    by_cases hres : objGet attrs "data-txr-resolved" ≠ none
    · rw [if_pos hres]
      exact keyStable_elem _ _ _ _ h.1 h.2
    · rw [if_neg hres]
      by_cases htag : tag.toLower = "script" ∨ tag.toLower = "style" ∨ tag.toLower = "noscript"
      · rw [if_pos htag]
        exact keyStable_elem _ _ _ _ h.1 h.2
      · rw [if_neg htag]
        have hr := textPassF_keyStable store fallback lang children attrs h.1 h.2
        exact keyStable_elem _ _ _ _ hr.1 hr.2
theorem textPassF_keyStable (store : LangStore) (fallback lang : String) :
    ∀ (fr : DomForest) (attrs : List (String × String)),
      keyMarked lang attrs → KeyStableF lang fr →
      keyMarked lang (textPassF store fallback lang fr attrs).2 ∧
      KeyStableF lang (textPassF store fallback lang fr attrs).1
  | DomForest.nil, attrs => fun hm _ => by
    rw [textPassF]
    exact ⟨hm, keyStableF_nil lang⟩
  | DomForest.cons (DomNode.textNode s) tl, attrs => fun hm h => by
    rw [KeyStableF] at h
    rw [textPassF]
    by_cases hc : s.trim ≠ "" ∧ truthyHit store lang s.trim = true
    · rw [if_pos hc]
      have hr := textPassF_keyStable store fallback lang tl (markParent attrs s.trim lang)
        (keyMarked_markParent attrs s.trim lang) h.2
      exact ⟨hr.1, keyStableF_cons _ _ _ (keyStable_text _ _) hr.2⟩
    · rw [if_neg hc]
      have hr := textPassF_keyStable store fallback lang tl attrs hm h.2
      exact ⟨hr.1, keyStableF_cons _ _ _ (keyStable_text _ _) hr.2⟩
  | DomForest.cons (DomNode.elem ctag cattrs cchildren) tl, attrs => fun hm h => by
    rw [KeyStableF] at h
    rw [textPassF]
    have hcn := textPass_keyStable store fallback lang (DomNode.elem ctag cattrs cchildren) h.1
    have hr := textPassF_keyStable store fallback lang tl attrs hm h.2
    exact ⟨hr.1, keyStableF_cons _ _ _ hcn hr.2⟩
end

/-- The text pass keeps an element's tag: its result on an element is an
element with the same tag. -/
theorem textPass_elem_shape (store : LangStore) (fallback lang tag : String)
    (attrs : List (String × String)) (children : DomForest) :
    ∃ a f, textPass store fallback lang (DomNode.elem tag attrs children) =
      DomNode.elem tag a f := by
  rw [textPass]
  split_ifs with h1 h2
  · exact ⟨attrs, children, rfl⟩
  · exact ⟨attrs, children, rfl⟩
  · exact ⟨_, _, rfl⟩

mutual
/-- `scanTextNodes` is idempotent on any tree: whatever it rewrites it also
marks, and whatever is marked it skips. -/
theorem textPass_idem (store : LangStore) (fallback lang : String) :
    ∀ n : DomNode, textPass store fallback lang (textPass store fallback lang n) =
      textPass store fallback lang n
  | DomNode.textNode s => by rw [textPass, textPass]
  | DomNode.elem tag attrs children => by
    rw [textPass]
    by_cases hres : objGet attrs "data-txr-resolved" ≠ none
    · rw [if_pos hres, textPass, if_pos hres]
    · rw [if_neg hres]
      by_cases htag : tag.toLower = "script" ∨ tag.toLower = "style" ∨ tag.toLower = "noscript"
      · rw [if_pos htag, textPass, if_neg hres, if_pos htag]
      · rw [if_neg htag]
        dsimp only
        rw [textPass]
        by_cases hres2 : objGet (textPassF store fallback lang children attrs).2
            "data-txr-resolved" ≠ none
        · rw [if_pos hres2]
        · rw [if_neg hres2, if_neg htag]
          dsimp only
          rcases textPassF_untouched_or_resolved store fallback lang children attrs with
            hunt | hmark
          · have hstable := textPassF_stable store fallback lang children attrs
              (not_not.mp hres) hunt
            rw [hunt, hstable, hunt]
          · exact absurd hmark hres2
theorem textPassF_stable (store : LangStore) (fallback lang : String) :
    ∀ (fr : DomForest) (attrs : List (String × String)),
      objGet attrs "data-txr-resolved" = none →
      (textPassF store fallback lang fr attrs).2 = attrs →
      textPassF store fallback lang (textPassF store fallback lang fr attrs).1 attrs =
        textPassF store fallback lang fr attrs
  | DomForest.nil, attrs => fun _ _ => by
    rw [textPassF]
    dsimp only
    rw [textPassF]
  | DomForest.cons (DomNode.textNode s) tl, attrs => fun hres heq => by
    rw [textPassF] at heq ⊢
    by_cases hc : s.trim ≠ "" ∧ truthyHit store lang s.trim = true
    · rw [if_pos hc] at heq
      dsimp only at heq
      have hmarked := textPassF_resolved store fallback lang tl (markParent attrs s.trim lang)
        (by rw [objGet_markParent_resolved]; simp)
      rw [heq] at hmarked
      exact absurd hres hmarked
    · rw [if_neg hc] at heq ⊢
      dsimp only at heq ⊢
      rw [textPassF, if_neg hc]
      have hst := textPassF_stable store fallback lang tl attrs hres heq
      rw [hst]
  | DomForest.cons (DomNode.elem ctag cattrs cchildren) tl, attrs => fun hres heq => by
    rw [textPassF] at heq ⊢
    dsimp only at heq ⊢
    obtain ⟨a, f, hshape⟩ := textPass_elem_shape store fallback lang ctag cattrs cchildren
    rw [hshape, textPassF, ← hshape,
      textPass_idem store fallback lang (DomNode.elem ctag cattrs cchildren), hshape]
    have hst := textPassF_stable store fallback lang tl attrs hres heq
    rw [hst]
end

/-- C9: `scan()` is idempotent — with no document mutation and no language
change, a second `scan()` leaves the tree produced by the first one
unchanged — and `scan()` is a no-op when the engine is not initialized. -/
theorem scan_idempotent :
    (∀ (isInit : Bool) (store : LangStore) (fallback lang : String) (body : DomNode),
      scanOp isInit store fallback lang (scanOp isInit store fallback lang body) =
        scanOp isInit store fallback lang body)
    ∧ ∀ (store : LangStore) (fallback lang : String) (body : DomNode),
      scanOp false store fallback lang body = body := by
  have hbody : ∀ (store : LangStore) (fallback lang : String) (body : DomNode),
      scanBody store fallback lang (scanBody store fallback lang body) =
        scanBody store fallback lang body := by
    intro store fallback lang body
    rw [scanBody, scanBody]
    have h1 : KeyStable lang (attrPass store fallback lang body) :=
      attrPass_keyStable store fallback lang body
    have h2 : KeyStable lang (textPass store fallback lang (attrPass store fallback lang body)) :=
      textPass_keyStable store fallback lang _ h1
    rw [attrPass_id store fallback lang _ h2]
    exact textPass_idem store fallback lang _
  constructor
  · intro isInit store fallback lang body
    cases isInit
    · simp [scanOp]
    · simp [scanOp, hbody]
  · intro store fallback lang body
    simp [scanOp]

end TenlixorSDK
